import Mathlib

/-!
Verification of the training / checkpoint logic of a German-English NMT
trainer (`utils/trainer.py`).

Modelling conventions:
* Python floats (losses, perplexities, `boost_percent`) are rationals.
* Python `float("inf")` is `none : Option Rat` - see `ltBest`.
* Python dicts are association lists preserving insertion order.
* The checkpoint directory is an association list from file paths to
  checkpoint records; a write prepends, a read takes the latest write.
* Fallible Python code returns `Except`.
-/

/-- Python `str.endswith`, computed on the underlying character lists. -/
def strEndsWith (s suf : String) : Bool :=
  suf.data.isSuffixOf s.data

/-- Python `int()` applied to a rational: truncation toward zero, i.e.
truncating division of the numerator by the denominator of the normalised
fraction. -/
def pyInt (q : ℚ) : ℤ :=
  q.num.tdiv q.den

/-- For a nonnegative rational, Python `int()` truncation agrees with the
mathematical floor. -/
theorem pyInt_eq_floor {q : ℚ} (hq : 0 ≤ q) : pyInt q = ⌊q⌋ := by
  rw [pyInt, Int.tdiv_eq_ediv (Rat.num_nonneg.mpr hq) (by positivity), Rat.floor_def]

/-- One training example as used for ranking: the pair
(source token tuple, target token tuple) - the key of
`example_to_perplexity`. -/
abbrev Ex : Type := List String × List String

/-- One entry of the `example_to_perplexity` mapping: an example together
with its perplexity score. -/
abbrev ScoredEx : Type := Ex × ℚ

/-- Insertion step of the stable descending sort: the new element moves past
entries with a strictly larger score and stops in front of the first entry
whose score is less than or equal to its own.  Since elements are inserted
in reverse order of the original list (see `sortScoreDesc`), an earlier
element of a tie ends up in front, exactly as with Python's stable
`sorted(..., reverse=True)`. -/
def insertScoreDesc (a : ScoredEx) : List ScoredEx → List ScoredEx
  | [] => [a]
  | b :: bs => if a.2 < b.2 then b :: insertScoreDesc a bs else a :: b :: bs

/-- Stable descending sort by score, the embedding of
`sorted(example_to_perplexity.items(), key=lambda kv: kv[1], reverse=True)`
in `Trainer.get_hardest_examples` (trainer.py:157-158). -/
def sortScoreDesc : List ScoredEx → List ScoredEx
  | [] => []
  | x :: xs => insertScoreDesc x (sortScoreDesc xs)

/-- Embedding of `Trainer.get_hardest_examples` (trainer.py:146-171): sort
the scored examples by descending score, then slice off the first
`int(boost_percent * len(sorted_examples))` of them.  The two `print` loops
over the ten hardest and ten easiest entries are observational output with
no effect on the returned value. -/
def get_hardest_examples (example_to_perplexity : List ScoredEx)
    (boost_percent : ℚ) : List ScoredEx :=
  let sorted_examples := sortScoreDesc example_to_perplexity
  let slice_index := (pyInt (boost_percent * (sorted_examples.length : ℚ))).toNat
  sorted_examples.take slice_index

/-- Concrete scored pool used by the C2 witness: four examples, one tied
pair of scores. -/
def witnessPool : List ScoredEx :=
  [((["a"], ["w"]), 3), ((["b"], ["x"]), 5),
   ((["c"], ["y"]), 3), ((["d"], ["z"]), 1)]

/-- Model and optimizer state dicts: parameter name to tensor contents.
Tensor contents are opaque bit patterns, modelled as naturals, so equality
of entries is the bit-identity of the claim texts. -/
abbrev StateDict : Type := List (String × Nat)

/-- Checkpoint record: the `state` dict assembled in `Trainer.train`
(trainer.py:392-395) and serialized by `torch.save`: the 1-based epoch
number, the model state dict and the optimizer state dict (opaque). -/
structure Ckpt where
  epoch : Nat
  state_dict : StateDict
  optim_dict : Nat
deriving DecidableEq, Repr

/-- Contents of the checkpoint directory: file path to record.  A write
prepends and a read returns the most recent write for the path. -/
abbrev FS : Type := List (String × Ckpt)

/-- Write (create or overwrite) one file. -/
def fsWrite (fs : FS) (p : String) (c : Ckpt) : FS := (p, c) :: fs

/-- Read one file: the most recently written contents, if any. -/
def fsRead : FS → String → Option Ckpt
  | [], _ => none
  | (p, c) :: fs, q => if q = p then some c else fsRead fs q

/-- Python `os.path.join` for the call sites in `save_checkpoint`: keep a
trailing slash of the directory, otherwise insert one. -/
def pathJoin (dir file : String) : String :=
  if strEndsWith dir "/" then dir ++ file else dir ++ "/" ++ file

/-- Embedding of `Trainer.save_checkpoint` (trainer.py:419-435): write the
state to `epoch_{n}.pth.tar` under the checkpoint directory and, when
`is_best`, copy that file to the fixed name `best.pth.tar`.  Directory
creation (`os.mkdir`) does not change the path-to-contents map. -/
def save_checkpoint (fs : FS) (state : Ckpt) (is_best : Bool)
    (checkpoint : String) : FS :=
  let filedir := "epoch_" ++ toString state.epoch ++ ".pth.tar"
  let filepath := pathJoin checkpoint filedir
  let fs1 := fsWrite fs filepath state
  if is_best then fsWrite fs1 (pathJoin checkpoint "best.pth.tar") state else fs1

/-- Python comparison `val_loss_avg < self.best_val_loss` (line 386),
where `best_val_loss` starts as `float("inf")`, modelled as `none`:
everything is smaller than infinity. -/
def ltBest (v : ℚ) : Option ℚ → Bool
  | none => true
  | some b => decide (v < b)

/-- The orchestrator state that the end-of-epoch block reads and writes:
the tracked best validation loss and the checkpoint directory. -/
structure TrainerState where
  best_val_loss : Option ℚ
  fs : FS

/-- Embedding of trainer.py:386-401, the end-of-epoch block of
`Trainer.train`: compute `is_best`, save the checkpoint (overwriting
`best.pth.tar` exactly when `is_best`), and update `best_val_loss` to the
current validation loss exactly when `is_best`. -/
def epochEndStep (s : TrainerState) (epoch : Nat) (model_state : StateDict)
    (optim_dict : Nat) (checkpoint_dir : String) (val_loss_avg : ℚ) :
    Bool × TrainerState :=
  let is_best := ltBest val_loss_avg s.best_val_loss
  let fs' := save_checkpoint s.fs ⟨epoch + 1, model_state, optim_dict⟩
    is_best checkpoint_dir
  let best' := if is_best then some val_loss_avg else s.best_val_loss
  (is_best, ⟨best', fs'⟩)

/-- Orchestrator state after `k` completed epochs of a run in which epoch
`e` (0-based) ends with validation loss-per-word `valLoss e`, model state
`ms e` and optimizer state `od e`.  Initially `best_val_loss` is infinity
and the directory contents are `fs0`. -/
def trainerStateAfter (ms : Nat → StateDict) (od : Nat → Nat) (dir : String)
    (valLoss : Nat → ℚ) (fs0 : FS) : Nat → TrainerState
  | 0 => ⟨none, fs0⟩
  | k + 1 =>
    (epochEndStep (trainerStateAfter ms od dir valLoss fs0 k) k (ms k) (od k)
      dir (valLoss k)).2

/-- The `is_best` flag computed at the end of epoch `k` of that run. -/
def isBestAt (ms : Nat → StateDict) (od : Nat → Nat) (dir : String)
    (valLoss : Nat → ℚ) (fs0 : FS) (k : Nat) : Bool :=
  (epochEndStep (trainerStateAfter ms od dir valLoss fs0 k) k (ms k) (od k)
    dir (valLoss k)).1

/-- Validation losses of the C1 witness run: the specification scenario
2.5, 2.1, 2.3, 1.9 with best-checkpoint events after epochs 1, 2 and 4. -/
def witnessLosses : Nat → ℚ
  | 0 => 5 / 2
  | 1 => 21 / 10
  | 2 => 23 / 10
  | _ => 19 / 10

/-- Embedding of the part of the `Trainer.train` epoch body that follows
the validation pass (trainer.py:362-401).  Every `decode_every_num_epochs`
epochs the external decoder collaborator (`Translator.greedy_decode`) runs;
the source wraps that call in no `try`/`except`, so a raised error
propagates out of the epoch body and the scheduler step, the `is_best`
decision and the checkpoint write are never reached.  `decodeResult` is the
collaborator outcome; the scheduler and metric writes are external side
effects with no bearing on the returned state. -/
def postValidationPhase (epoch : Nat) (decode_every_num_epochs : Nat)
    (decodeResult : Except String (List String)) (s : TrainerState)
    (model_state : StateDict) (optim_dict : Nat) (checkpoint_dir : String)
    (val_loss_avg : ℚ) : Except String (Bool × TrainerState) :=
  if (epoch + 1) % decode_every_num_epochs == 0 then
    match decodeResult with
    | .error e => .error e
    | .ok _ =>
      .ok (epochEndStep s epoch model_state optim_dict checkpoint_dir val_loss_avg)
  else
    .ok (epochEndStep s epoch model_state optim_dict checkpoint_dir val_loss_avg)

/-- Python-level errors surfaced by the checkpoint-loading path. -/
inductive PyError where
  | typeError (msg : String)
  | runtimeError (msg : String)
deriving DecidableEq, Repr

/-- Boolean test that two key lists contain exactly the same keys. -/
def keysMatch (ks1 ks2 : List String) : Bool :=
  ks1.all (fun k => ks2.contains k) && ks2.all (fun k => ks1.contains k)

/-- Modelled from the documented contract of the external collaborator
`torch.nn.Module.load_state_dict` in its default strict mode: a missing or
unexpected key is a fatal `RuntimeError` and the model keeps its previous
parameters; otherwise every model parameter is overwritten with the stored
value for its key. -/
def load_state_dict (params : StateDict) (sd : StateDict) :
    Except PyError StateDict :=
  if keysMatch (params.map Prod.fst) (sd.map Prod.fst) then
    .ok (params.map fun kv => (kv.1, (sd.lookup kv.1).getD kv.2))
  else
    .error (.runtimeError "Error in loading state_dict: missing or unexpected keys")

/-- The `del` loop of `Trainer.load_checkpoint` (trainer.py:461-463):
delete from the state dict every key that ends in `weight_hh_l0`. -/
def dropLegacyKeys (state_dict : StateDict) : StateDict :=
  state_dict.filter (fun kv => !(strEndsWith kv.1 "weight_hh_l0"))

/-- The `checkpoint` argument of `Trainer.load_checkpoint`: either a path
string or an already-deserialized checkpoint dict. -/
inductive CkptSource where
  | path (p : String)
  | dict (c : Ckpt)

/-- Embedding of `Trainer.load_checkpoint` (trainer.py:437-472), without
the optional optimizer restore.  On a path string naming no file the
source executes `raise` applied to the formatted missing-file string; in
Python 3, `raise` on a value that is not an exception instance raises
`TypeError: exceptions must derive from BaseException`, so that formatted
message is never delivered, and the model is untouched.  Otherwise the
legacy `weight_hh_l0` keys are deleted from the loaded state dict in place
and the model parameters are restored from what remains. -/
def load_checkpoint (fs : FS) (model : StateDict) (checkpoint : CkptSource) :
    Except PyError StateDict :=
  match checkpoint with
  | .path p =>
    match fsRead fs p with
    | none => .error (.typeError "exceptions must derive from BaseException")
    | some c => load_state_dict model (dropLegacyKeys c.state_dict)
  | .dict c => load_state_dict model (dropLegacyKeys c.state_dict)

/-- Frame effect of `Trainer.load_checkpoint` on an already-deserialized
checkpoint dict passed in by the caller: the local
`state_dict = checkpoint["state_dict"]` aliases the caller-owned mapping
and the `del` loop mutates it in place; this definition is the mapping the
caller holds after the call returns, whatever the load result. -/
def load_checkpoint_dict_after (c : Ckpt) : Ckpt :=
  { c with state_dict := dropLegacyKeys c.state_dict }

/-- Inner loop of `Trainer.batch_reverse_tokenization` (trainer.py:247-253):
map ids back through the vocabulary, stopping at the first end-of-sequence
marker. -/
def reverseTokens (itos : Nat → String) (eos_index : Nat) :
    List Nat → List String
  | [] => []
  | token_id :: rest =>
    if token_id = eos_index then []
    else itos token_id :: reverseTokens itos eos_index rest

/-- Embedding of `Trainer.batch_reverse_tokenization` (trainer.py:235-255):
per example, collect tokens up to the end-of-sequence marker and drop the
leading start symbol (`sentence[1:]`). -/
def batch_reverse_tokenization (itos : Nat → String) (eos_index : Nat)
    (batch : List (List Nat)) : List (List String) :=
  batch.map fun ids => (reverseTokens itos eos_index ids).drop 1

/-- Modelled from the spec: the forward tokenization of the external
vocabulary / batching collaborators (out of scope in the source) produces a
leading start symbol, the numeric ids of the tokens, and a trailing
end-of-sequence marker. -/
def forwardTokenization (stoi : String → Nat) (sos_index eos_index : Nat)
    (tokens : List String) : List Nat :=
  sos_index :: tokens.map stoi ++ [eos_index]

/-- Concrete string-to-id map of the C7 witness vocabulary. -/
def witnessStoi : String → Nat :=
  fun t => if t = "hallo" then 4 else if t = "welt" then 5 else 9

/-- Concrete id-to-string map of the C7 witness vocabulary. -/
def witnessItos : Nat → String :=
  fun n => if n = 4 then "hallo" else if n = 5 then "welt" else "<unk>"

/-- Row count of `output[:, :-1, :].contiguous().view(-1, vocab)` for a
model output of shape (batch, out_seq_len, vocab): the element count
divided by the row width (trainer.py:97-98 and 215-216). -/
def output_rows (batch_size out_seq_len vocab_size : Nat) : Nat :=
  batch_size * (out_seq_len - 1) * vocab_size / vocab_size

/-- Element count of `trg[:, 1:].contiguous().view(-1)` for a target batch
of shape (batch, trg_seq_len) (trainer.py:99 and 217). -/
def trg_rows (batch_size trg_seq_len : Nat) : Nat :=
  batch_size * (trg_seq_len - 1)

/-- The `assert output.size(0) == trg.size(0)` of `Trainer.train_epoch`
(trainer.py:101): shape agreement or an AssertionError abort. -/
def train_epoch_shape_assert (batch_size out_seq_len trg_seq_len vocab_size : Nat) :
    Except String Unit :=
  if output_rows batch_size out_seq_len vocab_size = trg_rows batch_size trg_seq_len
  then .ok ()
  else .error "AssertionError: output.size(0) == trg.size(0)"

/-- The identical `assert` in `Trainer.validate` (trainer.py:219). -/
def validate_shape_assert (batch_size out_seq_len trg_seq_len vocab_size : Nat) :
    Except String Unit :=
  if output_rows batch_size out_seq_len vocab_size = trg_rows batch_size trg_seq_len
  then .ok ()
  else .error "AssertionError: output.size(0) == trg.size(0)"

/-- Embedding of `Trainer.create_example_objs` (trainer.py:257-277): one
`Example` object per hard instance, carrying its source and target token
lists. -/
def create_example_objs (hard_training_instances : List ScoredEx) : List Ex :=
  hard_training_instances.map fun inst => (inst.1.1, inst.1.2)

/-- The boosting guard of `Trainer.train` (trainer.py:320):
`self.params.boost and epoch + 1 > self.params.boost_warmup` with `epoch`
0-based. -/
def boostingApplies (boost : Bool) (boost_warmup : Nat) (epoch : Nat) : Bool :=
  boost && decide (epoch + 1 > boost_warmup)

/-- Modelled from the spec for the batch-stream collaborator
(`utils.data_loader.DataIterator`, whose module is not under `src/`): it
exposes the underlying mutable example collection, `train_iter.data()`
returns that collection, and `extend` grows it in place, so extensions
persist across epochs.  `trainStreamAt boost w d0 pools k` is the example
collection that epoch `k` (0-based) trains on, where `pools e` is the
hard-example pool returned by `train_epoch` in epoch `e` and the pool in
scope before epoch 0 is empty (trainer.py:305-306); batching over the
collection is delegated to the collaborator and does not change it. -/
def trainStreamAt (boost : Bool) (boost_warmup : Nat) (initData : List Ex)
    (pools : Nat → List ScoredEx) : Nat → List Ex
  | 0 =>
    if boostingApplies boost boost_warmup 0
    then initData ++ create_example_objs []
    else initData
  | k + 1 =>
    let prev := trainStreamAt boost boost_warmup initData pools k
    if boostingApplies boost boost_warmup (k + 1)
    then prev ++ create_example_objs (pools k)
    else prev

/-- Initial training data of the C3/C9 witnesses. -/
def witnessInitData : List Ex := [(["x"], ["y"])]

/-- Per-epoch hard pools of the C3/C9 witnesses: always one example. -/
def witnessPools : Nat → List ScoredEx := fun _ => [((["ein"], ["a"]), 2)]

/-- Checkpoint dict of the C10 witness: one legacy recurrent-cell key and
one ordinary parameter key. -/
def witnessCkpt : Ckpt :=
  ⟨3, [("gru.weight_hh_l0", 7), ("encoder.weight", 5)], 9⟩

/-- Pre-save model parameters of the C6 witness. -/
def witnessModel : StateDict := [("encoder.weight", 5), ("decoder.weight", 8)]

/-- Fresh model of the C6 witness: same parameter keys as `witnessModel`,
different values, to be overwritten by the load. -/
def witnessFresh : StateDict := [("encoder.weight", 0), ("decoder.weight", 1)]

/-- Legacy entries of the C6 witness checkpoint. -/
def witnessLegacy : StateDict := [("gru.weight_hh_l0", 7)]

/-- A state dict with a non-legacy key mismatch for the C6 witness. -/
def witnessBadSd : StateDict := [("unrelated.weight", 2)]

theorem length_insertScoreDesc (a : ScoredEx) (l : List ScoredEx) :
    (insertScoreDesc a l).length = l.length + 1 := by
  induction l with
  | nil => rfl
  | cons b bs ih =>
    rw [insertScoreDesc]
    split
    · simp [List.length_cons, ih]
    · simp [List.length_cons]

theorem perm_insertScoreDesc (a : ScoredEx) (l : List ScoredEx) :
    (insertScoreDesc a l).Perm (a :: l) := by
  induction l with
  | nil => rfl
  | cons b bs ih =>
    rw [insertScoreDesc]
    split
    · exact (ih.cons b).trans (List.Perm.swap a b bs)
    · rfl

theorem perm_sortScoreDesc (l : List ScoredEx) : (sortScoreDesc l).Perm l := by
  induction l with
  | nil => rfl
  | cons x xs ih =>
    rw [sortScoreDesc]
    exact (perm_insertScoreDesc x (sortScoreDesc xs)).trans (ih.cons x)

theorem length_sortScoreDesc (l : List ScoredEx) :
    (sortScoreDesc l).length = l.length :=
  (perm_sortScoreDesc l).length_eq

theorem sorted_insertScoreDesc (a : ScoredEx) (l : List ScoredEx)
    (h : l.Pairwise (fun x y => y.2 ≤ x.2)) :
    (insertScoreDesc a l).Pairwise (fun x y => y.2 ≤ x.2) := by
  induction l with
  | nil => simp [insertScoreDesc]
  | cons b bs ih =>
    rw [List.pairwise_cons] at h
    rw [insertScoreDesc]
    split
    · rename_i hab
      refine List.pairwise_cons.mpr ⟨?_, ih h.2⟩
      intro c hc
      rcases List.mem_cons.mp ((perm_insertScoreDesc a bs).mem_iff.mp hc) with hc | hc
      · exact hc ▸ le_of_lt hab
      · exact h.1 c hc
    · rename_i hab
      push_neg at hab
      refine List.pairwise_cons.mpr ⟨?_, List.pairwise_cons.mpr h⟩
      intro c hc
      rcases List.mem_cons.mp hc with hc | hc
      · exact hc ▸ hab
      · exact le_trans (h.1 c hc) hab

theorem sorted_sortScoreDesc (l : List ScoredEx) :
    (sortScoreDesc l).Pairwise (fun x y => y.2 ≤ x.2) := by
  induction l with
  | nil => simp [sortScoreDesc]
  | cons x xs ih => exact sorted_insertScoreDesc x (sortScoreDesc xs) ih

theorem filter_insertScoreDesc (a : ScoredEx) (l : List ScoredEx) (s : ℚ) :
    (insertScoreDesc a l).filter (fun x => decide (x.2 = s)) =
      if a.2 = s then a :: l.filter (fun x => decide (x.2 = s))
      else l.filter (fun x => decide (x.2 = s)) := by
  induction l with
  | nil =>
    rw [insertScoreDesc]
    by_cases has : a.2 = s <;> simp [has]
  | cons b bs ih =>
    rw [insertScoreDesc]
    split
    · rename_i hab
      by_cases has : a.2 = s
      · have hbs : ¬ b.2 = s := by
          intro hb
          rw [has, hb] at hab
          exact lt_irrefl s hab
        simp only [List.filter_cons, ih]
        simp [has, hbs]
      · simp only [List.filter_cons, ih]
        simp [has]
    · simp only [List.filter_cons]
      by_cases has : a.2 = s <;> simp [has]

theorem filter_sortScoreDesc (l : List ScoredEx) (s : ℚ) :
    (sortScoreDesc l).filter (fun x => decide (x.2 = s)) =
      l.filter (fun x => decide (x.2 = s)) := by
  induction l with
  | nil => rfl
  | cons x xs ih =>
    rw [sortScoreDesc, filter_insertScoreDesc, List.filter_cons]
    by_cases hxs : x.2 = s <;> simp [hxs, ih]

/-- C2.  For every mapping of scored examples and every `boost_percent`
`p ∈ [0,1]`, `get_hardest_examples` returns exactly `⌊p * N⌋` items; these
are an initial segment of the descending sort of the mapping (so every
returned item scores at least as high as every item left behind, and the
sort is a permutation of the input); ties are broken by original insertion
order, expressed by the sort agreeing with the input on the sublist of
entries of any fixed score.  Being a pure function of the mapping and `p`,
the result is deterministic. -/
theorem C2_hardest_slice (items : List ScoredEx) (p : ℚ)
    (hp0 : 0 ≤ p) (hp1 : p ≤ 1) :
    (get_hardest_examples items p).length = (⌊p * (items.length : ℚ)⌋).toNat
    ∧ get_hardest_examples items p
        ++ (sortScoreDesc items).drop (⌊p * (items.length : ℚ)⌋).toNat
        = sortScoreDesc items
    ∧ (sortScoreDesc items).Perm items
    ∧ (∀ a ∈ get_hardest_examples items p,
        ∀ b ∈ (sortScoreDesc items).drop (⌊p * (items.length : ℚ)⌋).toNat,
          b.2 ≤ a.2)
    ∧ (∀ s : ℚ, (sortScoreDesc items).filter (fun x => decide (x.2 = s))
        = items.filter (fun x => decide (x.2 = s))) := by
  have hN : (0 : ℚ) ≤ (items.length : ℚ) := by positivity
  have hq : 0 ≤ p * (items.length : ℚ) := mul_nonneg hp0 hN
  have hslice : get_hardest_examples items p
      = (sortScoreDesc items).take (⌊p * (items.length : ℚ)⌋).toNat := by
    rw [get_hardest_examples, length_sortScoreDesc, pyInt_eq_floor hq]
  have hle : (⌊p * (items.length : ℚ)⌋).toNat ≤ (sortScoreDesc items).length := by
    rw [length_sortScoreDesc]
    have h1 : p * (items.length : ℚ) ≤ (items.length : ℚ) := by
      calc p * (items.length : ℚ) ≤ 1 * (items.length : ℚ) :=
            mul_le_mul_of_nonneg_right hp1 hN
        _ = (items.length : ℚ) := one_mul _
    have h2 : ⌊p * (items.length : ℚ)⌋ ≤ (items.length : ℤ) := by
      have := Int.floor_le_floor h1
      rwa [Int.floor_natCast] at this
    calc (⌊p * (items.length : ℚ)⌋).toNat ≤ ((items.length : ℤ)).toNat :=
          Int.toNat_le_toNat h2
      _ = items.length := Int.toNat_natCast _
  refine ⟨?_, ?_, perm_sortScoreDesc items, ?_, filter_sortScoreDesc items⟩
  · rw [hslice, List.length_take, min_eq_left hle]
  · rw [hslice, List.take_append_drop]
  · intro a ha b hb
    have hsorted := sorted_sortScoreDesc items
    rw [hslice] at ha
    have := List.take_append_drop (⌊p * (items.length : ℚ)⌋).toNat (sortScoreDesc items)
    rw [← this] at hsorted
    exact (List.pairwise_append.mp hsorted).2.2 a ha b hb

/-- Witness for C2: the concrete pool `witnessPool` with
`boost_percent = 1/2` satisfies the hypotheses, and the slice length
conclusion holds there. -/
theorem C2_hardest_slice_witness :
    (0 : ℚ) ≤ 1 / 2 ∧ (1 : ℚ) / 2 ≤ 1
    ∧ (get_hardest_examples witnessPool (1 / 2)).length
        = (⌊(1 : ℚ) / 2 * (witnessPool.length : ℚ)⌋).toNat :=
  ⟨by norm_num, by norm_num,
    (C2_hardest_slice witnessPool (1 / 2) (by norm_num) (by norm_num)).1⟩

theorem string_append_cancel {s a b : String} (h : s ++ a = s ++ b) : a = b := by
  have hd := congrArg String.data h
  rw [String.data_append, String.data_append] at hd
  have hab := List.append_cancel_left hd
  cases a
  cases b
  exact congrArg String.mk hab

theorem epochFileName_ne_bestFileName (r : String) :
    ("epoch_" ++ r ++ ".pth.tar" : String) ≠ "best.pth.tar" := by
  intro h
  have hd := congrArg String.data h
  rw [String.data_append, String.data_append] at hd
  have h1 : "epoch_".data = ['e', 'p', 'o', 'c', 'h', '_'] := rfl
  have h2 : "best.pth.tar".data
      = ['b', 'e', 's', 't', '.', 'p', 't', 'h', '.', 't', 'a', 'r'] := rfl
  rw [h1, h2] at hd
  simp only [List.cons_append] at hd
  injection hd with h3 _
  exact absurd h3 (by decide)

theorem epochFile_ne_bestFile (dir r : String) :
    pathJoin dir ("epoch_" ++ r ++ ".pth.tar") ≠ pathJoin dir "best.pth.tar" := by
  unfold pathJoin
  split
  · intro h
    exact epochFileName_ne_bestFileName r (string_append_cancel h)
  · intro h
    exact epochFileName_ne_bestFileName r (string_append_cancel h)

theorem ltBest_trainerStateAfter (ms : Nat → StateDict) (od : Nat → Nat)
    (dir : String) (valLoss : Nat → ℚ) (fs0 : FS) :
    ∀ (k : Nat) (v : ℚ),
      ltBest v ((trainerStateAfter ms od dir valLoss fs0 k).best_val_loss) = true
        ↔ ∀ j, j < k → v < valLoss j := by
  intro k
  induction k with
  | zero =>
    intro v
    simp [trainerStateAfter, ltBest]
  | succ k ih =>
    intro v
    have hstate : (trainerStateAfter ms od dir valLoss fs0 (k + 1)).best_val_loss
        = if ltBest (valLoss k)
              ((trainerStateAfter ms od dir valLoss fs0 k).best_val_loss)
          then some (valLoss k)
          else (trainerStateAfter ms od dir valLoss fs0 k).best_val_loss := rfl
    by_cases hb : ltBest (valLoss k)
        ((trainerStateAfter ms od dir valLoss fs0 k).best_val_loss) = true
    · rw [hstate, if_pos hb]
      constructor
      · intro hv j hj
        have hvk : v < valLoss k := by simpa [ltBest] using hv
        rcases Nat.lt_succ_iff_lt_or_eq.mp hj with hj | hj
        · exact lt_trans hvk ((ih (valLoss k)).mp hb j hj)
        · exact hj ▸ hvk
      · intro h
        simpa [ltBest] using h k (Nat.lt_succ_self k)
    · rw [hstate, if_neg hb]
      have hex : ∃ j, j < k ∧ valLoss j ≤ valLoss k := by
        by_contra hc
        push_neg at hc
        exact hb ((ih (valLoss k)).mpr fun j hj => hc j hj)
      constructor
      · intro hv j hj
        have hall := (ih v).mp hv
        rcases Nat.lt_succ_iff_lt_or_eq.mp hj with hj | hj
        · exact hall j hj
        · rcases hex with ⟨j0, hj0, hle⟩
          exact hj ▸ lt_of_lt_of_le (hall j0 hj0) hle
      · intro h
        exact (ih v).mpr fun j hj => h j (Nat.lt_succ_of_lt hj)

/-- C1.  In every run, the `is_best` flag of epoch `k` is true if and only
if that epoch's validation loss-per-word is strictly below every earlier
epoch's validation loss (the minimum over no epochs being infinity); the
fixed `best.pth.tar` file is overwritten with epoch `k`'s checkpoint
exactly when `is_best` is true and is untouched otherwise; and the tracked
`best_val_loss` is updated to the current validation loss exactly when
`is_best` is true. -/
theorem C1_is_best_checkpoint (ms : Nat → StateDict) (od : Nat → Nat)
    (dir : String) (valLoss : Nat → ℚ) (fs0 : FS) :
    (∀ k, isBestAt ms od dir valLoss fs0 k = true
        ↔ ∀ j, j < k → valLoss k < valLoss j)
    ∧ (∀ k, fsRead (trainerStateAfter ms od dir valLoss fs0 (k + 1)).fs
          (pathJoin dir "best.pth.tar")
        = if isBestAt ms od dir valLoss fs0 k
          then some ⟨k + 1, ms k, od k⟩
          else fsRead (trainerStateAfter ms od dir valLoss fs0 k).fs
            (pathJoin dir "best.pth.tar"))
    ∧ (∀ k, (trainerStateAfter ms od dir valLoss fs0 (k + 1)).best_val_loss
        = if isBestAt ms od dir valLoss fs0 k
          then some (valLoss k)
          else (trainerStateAfter ms od dir valLoss fs0 k).best_val_loss) := by
  refine ⟨fun k => ltBest_trainerStateAfter ms od dir valLoss fs0 k (valLoss k),
    fun k => ?_, fun k => rfl⟩
  have hne : pathJoin dir "best.pth.tar"
      ≠ pathJoin dir ("epoch_" ++ toString (k + 1) ++ ".pth.tar") :=
    Ne.symm (epochFile_ne_bestFile dir (toString (k + 1)))
  by_cases hb : ltBest (valLoss k)
      ((trainerStateAfter ms od dir valLoss fs0 k).best_val_loss) = true
  · have hb2 : isBestAt ms od dir valLoss fs0 k = true := hb
    simp only [trainerStateAfter, epochEndStep, save_checkpoint, fsWrite, hb,
      hb2, if_true]
    simp [fsRead]
  · have hb2 : isBestAt ms od dir valLoss fs0 k = false :=
      Bool.not_eq_true _ |>.mp hb
    simp only [trainerStateAfter, epochEndStep, save_checkpoint, fsWrite, hb2,
      Bool.false_eq_true, if_false]
    rw [Bool.not_eq_true] at hb
    simp only [hb, Bool.false_eq_true, if_false]
    simp [fsRead, hne]

/-- Witness for C1: on the loss sequence 2.5, 2.1, 2.3, 1.9 the `is_best`
events fire after epochs 1, 2 and 4 only. -/
theorem C1_is_best_checkpoint_witness :
    isBestAt (fun _ => []) (fun _ => 0) "exp/" witnessLosses [] 0 = true
    ∧ isBestAt (fun _ => []) (fun _ => 0) "exp/" witnessLosses [] 1 = true
    ∧ isBestAt (fun _ => []) (fun _ => 0) "exp/" witnessLosses [] 2 = false
    ∧ isBestAt (fun _ => []) (fun _ => 0) "exp/" witnessLosses [] 3 = true := by
  have h := (C1_is_best_checkpoint (fun _ => []) (fun _ => 0) "exp/"
    witnessLosses []).1
  refine ⟨?_, ?_, ?_, ?_⟩
  · exact (h 0).mpr fun j hj => absurd hj (Nat.not_lt_zero j)
  · refine (h 1).mpr ?_
    intro j hj
    interval_cases j
    norm_num [witnessLosses]
  · by_contra hc
    rw [Bool.not_eq_false] at hc
    have h21 := (h 2).mp hc 1 (by norm_num)
    norm_num [witnessLosses] at h21
  · refine (h 3).mpr ?_
    intro j hj
    interval_cases j
    · norm_num [witnessLosses]
    · norm_num [witnessLosses]
    · norm_num [witnessLosses]

/-- Counterexample for C4.  At epoch 3 (0-based epoch 2, a decode epoch
with the default period 3), a failing decoder collaborator makes the epoch
body return the raised error: the error is not caught, so the orchestrator
does not go on to the scheduler step, the `is_best` decision or the
checkpoint write of that epoch. -/
theorem C4_counterexample :
    postValidationPhase 2 3 (Except.error "greedy decode failed")
        ⟨none, []⟩ [] 0 "exp/" 1 = Except.error "greedy decode failed"
    ∧ ¬ ∃ out, postValidationPhase 2 3 (Except.error "greedy decode failed")
        ⟨none, []⟩ [] 0 "exp/" 1 = Except.ok out := by
  refine ⟨rfl, ?_⟩
  rintro ⟨out, hout⟩
  rw [postValidationPhase] at hout
  simp at hout

/-- C4 as amended.  On an epoch where the periodic greedy-decoding sample
step runs, a failure of the decoder collaborator propagates: the epoch body
evaluates to that error, so the scheduler step, the `is_best` decision and
the checkpoint write of the epoch do not happen (validation itself precedes
the decode step and has already completed).  When the decoder succeeds, or
the epoch is not a decode epoch, the epoch completes through the `is_best`
decision and checkpoint write. -/
theorem C4_decoder_failure_propagates (epoch N : Nat) (e : String)
    (s : TrainerState) (model_state : StateDict) (optim_dict : Nat)
    (dir : String) (v : ℚ) (hdec : (epoch + 1) % N = 0) :
    postValidationPhase epoch N (Except.error e) s model_state optim_dict dir v
        = Except.error e
    ∧ ∀ t, postValidationPhase epoch N (Except.ok t) s model_state optim_dict dir v
        = Except.ok (epochEndStep s epoch model_state optim_dict dir v) := by
  constructor
  · rw [postValidationPhase]
    simp [hdec]
  · intro t
    rw [postValidationPhase]
    by_cases h : (epoch + 1) % N == 0 <;> simp [h]

/-- Witness for the amended C4 at a concrete decode epoch. -/
theorem C4_decoder_failure_propagates_witness :
    (2 + 1) % 3 = 0
    ∧ postValidationPhase 2 3 (Except.error "boom") ⟨none, []⟩ [] 0 "exp/" 1
        = Except.error "boom" :=
  ⟨by decide,
    (C4_decoder_failure_propagates 2 3 "boom" ⟨none, []⟩ [] 0 "exp/" 1
      (by decide)).1⟩

/-- C5 evaluation at the failing input (code bug).  Loading from a path
that names no file does fail fatally before the model is touched, but the
delivered error is the Python 3 TypeError raised for applying `raise` to a
non-exception value: the formatted missing-file message of trainer.py:452
is never delivered, so the failure does not identify the missing-file
invariant. -/
theorem C5_missing_path_typeerror :
    load_checkpoint [] [("encoder.embedding.weight", 3)]
        (CkptSource.path "experiments/checkpoints/best.pth.tar")
      = Except.error
          (PyError.typeError "exceptions must derive from BaseException") := rfl

/-- C10.  When `load_checkpoint` receives an already-deserialized
checkpoint mapping, the caller-owned mapping is mutated in place: after the
call its `state_dict` is the original with exactly the keys ending in
`weight_hh_l0` deleted (every legacy entry is gone, every other entry
survives, in order), the `epoch` and `optim_dict` entries are untouched,
and the model restore reads the filtered dict. -/
theorem C10_dict_frame_effect (c : Ckpt) :
    (load_checkpoint_dict_after c).state_dict
        = c.state_dict.filter (fun kv => !(strEndsWith kv.1 "weight_hh_l0"))
    ∧ (∀ kv ∈ c.state_dict, strEndsWith kv.1 "weight_hh_l0" = true →
        kv ∉ (load_checkpoint_dict_after c).state_dict)
    ∧ (∀ kv ∈ c.state_dict, strEndsWith kv.1 "weight_hh_l0" = false →
        kv ∈ (load_checkpoint_dict_after c).state_dict)
    ∧ (load_checkpoint_dict_after c).epoch = c.epoch
    ∧ (load_checkpoint_dict_after c).optim_dict = c.optim_dict
    ∧ (∀ fs model, load_checkpoint fs model (CkptSource.dict c)
        = load_state_dict model (load_checkpoint_dict_after c).state_dict) := by
  refine ⟨rfl, ?_, ?_, rfl, rfl, fun fs model => rfl⟩
  · intro kv hkv hlegacy hmem
    have hp := List.of_mem_filter hmem
    simp [hlegacy] at hp
  · intro kv hkv hnot
    exact List.mem_filter.mpr ⟨hkv, by simp [hnot]⟩

/-- Witness for C10 at the concrete checkpoint dict `witnessCkpt`: its
legacy entry is gone after the call. -/
theorem C10_dict_frame_effect_witness :
    (("gru.weight_hh_l0", 7) ∈ witnessCkpt.state_dict
      ∧ strEndsWith "gru.weight_hh_l0" "weight_hh_l0" = true)
    ∧ ("gru.weight_hh_l0", 7) ∉ (load_checkpoint_dict_after witnessCkpt).state_dict :=
  ⟨⟨by decide, by decide⟩,
    (C10_dict_frame_effect witnessCkpt).2.1 ("gru.weight_hh_l0", 7)
      (by decide) (by decide)⟩

theorem keysMatch_of_eq {ks1 ks2 : List String} (h : ks1 = ks2) :
    keysMatch ks1 ks2 = true := by
  subst h
  rw [keysMatch]
  have hall : ks1.all (fun k => ks1.contains k) = true := by
    rw [List.all_eq_true]
    intro k hk
    exact List.elem_iff.mpr hk
  rw [hall]
  rfl

theorem restore_self : ∀ (m2 m : StateDict),
    m2.map Prod.fst = m.map Prod.fst → (m.map Prod.fst).Nodup →
    (m2.map fun kv => (kv.1, (m.lookup kv.1).getD kv.2)) = m := by
  intro m2
  induction m2 with
  | nil =>
    intro m hkeys _
    have hm : m = [] := List.map_eq_nil_iff.mp hkeys.symm
    rw [hm]
    rfl
  | cons kv2 t2 ih =>
    intro m hkeys hnodup
    cases m with
    | nil => simp at hkeys
    | cons kv t =>
      obtain ⟨k2, v2⟩ := kv2
      obtain ⟨k1, v1⟩ := kv
      simp only [List.map_cons, List.cons.injEq] at hkeys
      obtain ⟨hk, ht⟩ := hkeys
      subst hk
      rw [List.map_cons, List.nodup_cons] at hnodup
      obtain ⟨hnotin, hnodt⟩ := hnodup
      rw [List.map_cons]
      congr 1
      · simp [List.lookup]
      · have hstep : ∀ kv' ∈ t2,
            (kv'.1, (List.lookup kv'.1 ((k2, v1) :: t)).getD kv'.2)
              = (kv'.1, (List.lookup kv'.1 t).getD kv'.2) := by
          intro kv' hkv'
          have hk' : kv'.1 ∈ t.map Prod.fst :=
            ht ▸ List.mem_map_of_mem Prod.fst hkv'
          have hne : kv'.1 ≠ k2 := fun he => hnotin (he ▸ hk')
          have hb : (kv'.1 == k2) = false := beq_eq_false_iff_ne.mpr hne
          simp [List.lookup, hb]
        rw [List.map_congr_left hstep]
        exact ih t ht hnodt

theorem load_state_dict_restores {m2 m : StateDict}
    (hkeys : m2.map Prod.fst = m.map Prod.fst)
    (hnodup : (m.map Prod.fst).Nodup) :
    load_state_dict m2 m = Except.ok m := by
  rw [load_state_dict, if_pos (keysMatch_of_eq hkeys), restore_self m2 m hkeys hnodup]

/-- C6.  Saving a checkpoint of model state `m` and loading the written
file into a fresh model with the same parameter keys restores every
parameter bit-identically to its pre-save value; a checkpoint that
additionally carries legacy keys matching the recurrent-cell pattern
`weight_hh_l0` loads silently with those entries dropped instead of
failing; any other missing or unexpected key aborts the load with the
fatal RuntimeError of the strict restore. -/
theorem C6_checkpoint_roundtrip (m m2 legacy othersd : StateDict) (fs : FS)
    (e od : Nat) (b : Bool) (dir : String)
    (hkeys : m2.map Prod.fst = m.map Prod.fst)
    (hnodup : (m.map Prod.fst).Nodup)
    (hnl : ∀ kv ∈ m, strEndsWith kv.1 "weight_hh_l0" = false)
    (hleg : ∀ kv ∈ legacy, strEndsWith kv.1 "weight_hh_l0" = true) :
    load_checkpoint (save_checkpoint fs ⟨e, m, od⟩ b dir) m2
        (CkptSource.path (pathJoin dir ("epoch_" ++ toString e ++ ".pth.tar")))
      = Except.ok m
    ∧ load_checkpoint fs m2 (CkptSource.dict ⟨e, m ++ legacy, od⟩) = Except.ok m
    ∧ (keysMatch (m2.map Prod.fst) ((dropLegacyKeys othersd).map Prod.fst) = false →
        load_checkpoint fs m2 (CkptSource.dict ⟨e, othersd, od⟩)
          = Except.error (PyError.runtimeError
              "Error in loading state_dict: missing or unexpected keys")) := by
  have hdropm : dropLegacyKeys m = m := by
    rw [dropLegacyKeys, List.filter_eq_self]
    intro kv hkv
    simp [hnl kv hkv]
  refine ⟨?_, ?_, ?_⟩
  · have hread : fsRead (save_checkpoint fs ⟨e, m, od⟩ b dir)
        (pathJoin dir ("epoch_" ++ toString e ++ ".pth.tar")) = some ⟨e, m, od⟩ := by
      rw [save_checkpoint]
      cases b
      · simp [fsWrite, fsRead]
      · rcases eq_or_ne (pathJoin dir ("epoch_" ++ toString e ++ ".pth.tar"))
            (pathJoin dir "best.pth.tar") with h | h <;>
          simp [fsWrite, fsRead, h]
    rw [load_checkpoint, hread]
    show load_state_dict m2 (dropLegacyKeys m) = Except.ok m
    rw [hdropm, load_state_dict_restores hkeys hnodup]
  · show load_state_dict m2 (dropLegacyKeys (m ++ legacy)) = Except.ok m
    have hdrop2 : dropLegacyKeys (m ++ legacy) = m := by
      rw [dropLegacyKeys, List.filter_append]
      have h2 : legacy.filter (fun kv => !(strEndsWith kv.1 "weight_hh_l0")) = [] := by
        rw [List.filter_eq_nil_iff]
        intro kv hkv
        simp [hleg kv hkv]
      rw [h2, List.append_nil]
      exact hdropm
    rw [hdrop2, load_state_dict_restores hkeys hnodup]
  · intro hmm
    show load_state_dict m2 (dropLegacyKeys othersd) = _
    rw [load_state_dict, if_neg]
    rw [hmm]
    exact Bool.false_ne_true

/-- Witness for C6 on concrete one- and two-parameter state dicts. -/
theorem C6_checkpoint_roundtrip_witness :
    witnessFresh.map Prod.fst = witnessModel.map Prod.fst
    ∧ (witnessModel.map Prod.fst).Nodup
    ∧ (∀ kv ∈ witnessModel, strEndsWith kv.1 "weight_hh_l0" = false)
    ∧ (∀ kv ∈ witnessLegacy, strEndsWith kv.1 "weight_hh_l0" = true)
    ∧ load_checkpoint [] witnessFresh
        (CkptSource.dict ⟨4, witnessModel ++ witnessLegacy, 9⟩)
      = Except.ok witnessModel :=
  ⟨by decide, by decide, by decide, by decide,
    (C6_checkpoint_roundtrip witnessModel witnessFresh witnessLegacy
      witnessBadSd [] 4 9 true "experiments/checkpoints/"
      (by decide) (by decide) (by decide) (by decide)).2.1⟩

theorem reverseTokens_map_append (itos : Nat → String) (stoi : String → Nat)
    (eos : Nat) : ∀ tokens : List String,
    (∀ t ∈ tokens, itos (stoi t) = t) → (∀ t ∈ tokens, stoi t ≠ eos) →
    reverseTokens itos eos (tokens.map stoi ++ [eos]) = tokens := by
  intro tokens
  induction tokens with
  | nil =>
    intro _ _
    simp [reverseTokens]
  | cons t ts ih =>
    intro hrt hne
    rw [List.map_cons, List.cons_append]
    show (if stoi t = eos then []
      else itos (stoi t) :: reverseTokens itos eos (ts.map stoi ++ [eos])) = t :: ts
    rw [if_neg (hne t (List.mem_cons_self t ts)), hrt t (List.mem_cons_self t ts),
      ih (fun u hu => hrt u (List.mem_cons_of_mem t hu))
        (fun u hu => hne u (List.mem_cons_of_mem t hu))]

/-- C7.  Reverse tokenization inverts forward tokenization: for every batch
of token sequences whose forward tokenization carries the end-of-sequence
marker only at its true end (no token maps to the marker, and the start
symbol is not the marker), `batch_reverse_tokenization` applied to the
forward tokenizations recovers the original sequences, mapping each id back
through the vocabulary, stopping at the marker and dropping the leading
start symbol. -/
theorem C7_reverse_forward_identity (itos : Nat → String) (stoi : String → Nat)
    (sos eos : Nat) (batch : List (List String))
    (hrt : ∀ tokens ∈ batch, ∀ t ∈ tokens, itos (stoi t) = t)
    (hne : ∀ tokens ∈ batch, ∀ t ∈ tokens, stoi t ≠ eos)
    (hsos : sos ≠ eos) :
    batch_reverse_tokenization itos eos
        (batch.map (forwardTokenization stoi sos eos)) = batch := by
  rw [batch_reverse_tokenization, List.map_map]
  have hone : ∀ tokens ∈ batch,
      ((fun ids => (reverseTokens itos eos ids).drop 1)
          ∘ forwardTokenization stoi sos eos) tokens = id tokens := by
    intro tokens htk
    show (reverseTokens itos eos (forwardTokenization stoi sos eos tokens)).drop 1
      = tokens
    rw [forwardTokenization]
    show ((if sos = eos then []
      else itos sos :: reverseTokens itos eos (tokens.map stoi ++ [eos])).drop 1)
      = tokens
    rw [if_neg hsos]
    simp only [List.drop_succ_cons, List.drop_zero]
    exact reverseTokens_map_append itos stoi eos tokens
      (hrt tokens htk) (hne tokens htk)
  rw [List.map_congr_left hone, List.map_id]

/-- Witness for C7 on a two-sentence batch over a concrete vocabulary. -/
theorem C7_reverse_forward_identity_witness :
    (∀ tokens ∈ [["hallo", "welt"], ["welt"]],
      ∀ t ∈ tokens, witnessItos (witnessStoi t) = t)
    ∧ (∀ tokens ∈ [["hallo", "welt"], ["welt"]],
        ∀ t ∈ tokens, witnessStoi t ≠ 3)
    ∧ (2 : Nat) ≠ 3
    ∧ batch_reverse_tokenization witnessItos 3
        ([["hallo", "welt"], ["welt"]].map (forwardTokenization witnessStoi 2 3))
      = [["hallo", "welt"], ["welt"]] :=
  ⟨by decide, by decide, by decide,
    C7_reverse_forward_identity witnessItos witnessStoi 2 3
      [["hallo", "welt"], ["welt"]] (by decide) (by decide) (by decide)⟩

/-- C8.  For every batch in TRAIN or VALIDATE mode, the assert passes
exactly when the flattened output row count `B * (out_len - 1)` equals the
flattened shifted-target element count `B * (trg_len - 1)`; it never fires
on a well-formed batch where the model emits one distribution per target
position (`out_len = trg_len`); and on any disagreement execution aborts
with the fatal AssertionError instead of truncating. -/
theorem C8_shape_assert (B To T V : Nat) (hV : 0 < V) :
    (train_epoch_shape_assert B To T V = Except.ok ()
      ↔ B * (To - 1) = B * (T - 1))
    ∧ (To = T → train_epoch_shape_assert B To T V = Except.ok ())
    ∧ (B * (To - 1) ≠ B * (T - 1) →
        train_epoch_shape_assert B To T V
          = Except.error "AssertionError: output.size(0) == trg.size(0)")
    ∧ (validate_shape_assert B To T V = Except.ok ()
      ↔ B * (To - 1) = B * (T - 1))
    ∧ (To = T → validate_shape_assert B To T V = Except.ok ())
    ∧ (B * (To - 1) ≠ B * (T - 1) →
        validate_shape_assert B To T V
          = Except.error "AssertionError: output.size(0) == trg.size(0)") := by
  have hrows : output_rows B To V = B * (To - 1) := by
    rw [output_rows, Nat.mul_div_cancel _ hV]
  have h1 : train_epoch_shape_assert B To T V
      = if B * (To - 1) = B * (T - 1) then Except.ok ()
        else Except.error "AssertionError: output.size(0) == trg.size(0)" := by
    simp only [train_epoch_shape_assert, hrows, trg_rows]
  have h2 : validate_shape_assert B To T V
      = if B * (To - 1) = B * (T - 1) then Except.ok ()
        else Except.error "AssertionError: output.size(0) == trg.size(0)" := by
    simp only [validate_shape_assert, hrows, trg_rows]
  refine ⟨?_, ?_, ?_, ?_, ?_, ?_⟩
  · rw [h1]
    by_cases h : B * (To - 1) = B * (T - 1) <;> simp [h]
  · intro h
    subst h
    rw [h1, if_pos rfl]
  · intro h
    rw [h1, if_neg h]
  · rw [h2]
    by_cases h : B * (To - 1) = B * (T - 1) <;> simp [h]
  · intro h
    subst h
    rw [h2, if_pos rfl]
  · intro h
    rw [h2, if_neg h]

/-- Witness for C8 on a well-formed batch shape and on a mismatch. -/
theorem C8_shape_assert_witness :
    0 < 11
    ∧ train_epoch_shape_assert 4 7 7 11 = Except.ok ()
    ∧ (4 * (6 - 1) ≠ 4 * (7 - 1)
      ∧ validate_shape_assert 4 6 7 11
          = Except.error "AssertionError: output.size(0) == trg.size(0)") :=
  ⟨by decide, (C8_shape_assert 4 7 7 11 (by decide)).2.1 rfl,
    by decide, (C8_shape_assert 4 6 7 11 (by decide)).2.2.2.2.2 (by decide)⟩

theorem trainStream_prefix_succ (w : Nat) (d0 : List Ex)
    (pools : Nat → List ScoredEx) (k : Nat) :
    trainStreamAt true w d0 pools k <+: trainStreamAt true w d0 pools (k + 1) := by
  show trainStreamAt true w d0 pools k <+:
    (if boostingApplies true w (k + 1)
      then trainStreamAt true w d0 pools k ++ create_example_objs (pools k)
      else trainStreamAt true w d0 pools k)
  split
  · exact List.prefix_append _ _
  · exact List.prefix_rfl

theorem trainStream_prefix_le (w : Nat) (d0 : List Ex)
    (pools : Nat → List ScoredEx) :
    ∀ j k, j ≤ k →
      trainStreamAt true w d0 pools j <+: trainStreamAt true w d0 pools k := by
  intro j k hjk
  induction k with
  | zero =>
    rw [Nat.le_zero.mp hjk]
  | succ k ih =>
    rcases eq_or_lt_of_le hjk with rfl | hlt
    · exact List.prefix_rfl
    · exact (ih (Nat.lt_succ_iff.mp hlt)).trans (trainStream_prefix_succ w d0 pools k)

theorem boostingApplies_true_iff (w e : Nat) :
    boostingApplies true w e = true ↔ w ≤ e := by
  simp [boostingApplies, Nat.lt_succ_iff]

/-- C3.  With boosting enabled, the example collection only ever grows:
every epoch's collection is a prefix of every later epoch's; on each
boosting epoch (1-based epoch past the warmup count) the collection is
exactly the previous collection with that epoch's hard examples appended,
so the base set being extended already contains all hard examples added
before earlier boosting epochs (conjunct three); collection sizes are
monotone, and strictly increasing across a boosting epoch whose pool is
nonempty. -/
theorem C3_boosted_growth (w : Nat) (d0 : List Ex)
    (pools : Nat → List ScoredEx) :
    (∀ j k, j ≤ k →
      trainStreamAt true w d0 pools j <+: trainStreamAt true w d0 pools k)
    ∧ (∀ k, w ≤ k + 1 → trainStreamAt true w d0 pools (k + 1)
        = trainStreamAt true w d0 pools k ++ create_example_objs (pools k))
    ∧ (∀ e k, w ≤ e + 1 → e + 1 ≤ k →
        ∀ x ∈ create_example_objs (pools e),
          x ∈ trainStreamAt true w d0 pools k)
    ∧ (∀ j k, j ≤ k → (trainStreamAt true w d0 pools j).length
        ≤ (trainStreamAt true w d0 pools k).length)
    ∧ (∀ k, w ≤ k + 1 → pools k ≠ [] →
        (trainStreamAt true w d0 pools k).length
          < (trainStreamAt true w d0 pools (k + 1)).length) := by
  have hadd : ∀ k, w ≤ k + 1 → trainStreamAt true w d0 pools (k + 1)
      = trainStreamAt true w d0 pools k ++ create_example_objs (pools k) := by
    intro k hk
    show (if boostingApplies true w (k + 1)
        then trainStreamAt true w d0 pools k ++ create_example_objs (pools k)
        else trainStreamAt true w d0 pools k) = _
    rw [if_pos ((boostingApplies_true_iff w (k + 1)).mpr hk)]
  refine ⟨trainStream_prefix_le w d0 pools, hadd, ?_, ?_, ?_⟩
  · intro e k he hek x hx
    have hmem : x ∈ trainStreamAt true w d0 pools (e + 1) := by
      rw [hadd e he]
      exact List.mem_append_right _ hx
    exact (trainStream_prefix_le w d0 pools (e + 1) k hek).subset hmem
  · intro j k hjk
    exact (trainStream_prefix_le w d0 pools j k hjk).length_le
  · intro k hk hpool
    rw [hadd k hk, List.length_append]
    have : 0 < (create_example_objs (pools k)).length := by
      rw [create_example_objs, List.length_map]
      exact List.length_pos.mpr hpool
    omega

/-- Witness for C3 with warmup 1 and nonempty pools: the hard examples
added before epoch 2 are still in epoch 4's collection, and the collection
strictly grows across the boosting step of epoch 2. -/
theorem C3_boosted_growth_witness :
    (1 ≤ 0 + 1 ∧ 0 + 1 ≤ 3 ∧ ((["ein"], ["a"]) : Ex)
        ∈ create_example_objs (witnessPools 0)
      ∧ (["ein"], ["a"]) ∈ trainStreamAt true 1 witnessInitData witnessPools 3)
    ∧ (1 ≤ 1 + 1 ∧ witnessPools 1 ≠ []
      ∧ (trainStreamAt true 1 witnessInitData witnessPools 1).length
          < (trainStreamAt true 1 witnessInitData witnessPools 2).length) :=
  ⟨⟨by decide, by decide, by decide,
    (C3_boosted_growth 1 witnessInitData witnessPools).2.2.1 0 3
      (by decide) (by decide) (["ein"], ["a"]) (by decide)⟩,
   ⟨by decide, by decide,
    (C3_boosted_growth 1 witnessInitData witnessPools).2.2.2.2 1
      (by decide) (by decide)⟩⟩

/-- C9.  With boosting enabled and warmup count `w`, no boosting happens in
the first `w` epochs: the guard is false and the training stream is the
original collection; the guard first turns true at 1-based epoch `w + 1`
(0-based `w`).  In particular with `w = 2`, epochs 1 and 2 train on the
original stream and epoch 3 is the first boosted epoch, extending the
stream with the hard examples of epoch 2. -/
theorem C9_warmup_gate (w : Nat) (d0 : List Ex)
    (pools : Nat → List ScoredEx) :
    (∀ e, e + 1 ≤ w → boostingApplies true w e = false)
    ∧ (∀ e, e + 1 ≤ w → trainStreamAt true w d0 pools e = d0)
    ∧ boostingApplies true w w = true
    ∧ (boostingApplies true 2 0 = false ∧ boostingApplies true 2 1 = false
        ∧ boostingApplies true 2 2 = true
        ∧ trainStreamAt true 2 d0 pools 0 = d0
        ∧ trainStreamAt true 2 d0 pools 1 = d0
        ∧ trainStreamAt true 2 d0 pools 2
            = d0 ++ create_example_objs (pools 1)) := by
  have hfalse : ∀ e, e + 1 ≤ w → boostingApplies true w e = false := by
    intro e he
    rw [boostingApplies]
    simp only [Bool.true_and, decide_eq_false_iff_not]
    omega
  have hstream : ∀ e, e + 1 ≤ w → trainStreamAt true w d0 pools e = d0 := by
    intro e
    induction e with
    | zero =>
      intro he
      show (if boostingApplies true w 0 then d0 ++ create_example_objs [] else d0) = d0
      rw [hfalse 0 he]
      simp
    | succ e ih =>
      intro he
      show (if boostingApplies true w (e + 1)
          then trainStreamAt true w d0 pools e ++ create_example_objs (pools e)
          else trainStreamAt true w d0 pools e) = d0
      rw [hfalse (e + 1) he]
      simp only [Bool.false_eq_true, if_false]
      exact ih (Nat.le_of_succ_le he)
  refine ⟨hfalse, hstream, ?_, rfl, rfl, rfl, rfl, rfl, rfl⟩
  rw [boostingApplies]
  simp [Nat.lt_succ_iff]

/-- Witness for C9 at warmup 2, epoch 2 (1-based): the guard is off and the
stream is the original data. -/
theorem C9_warmup_gate_witness :
    (1 + 1 ≤ 2)
    ∧ boostingApplies true 2 1 = false
    ∧ trainStreamAt true 2 witnessInitData witnessPools 1 = witnessInitData :=
  ⟨by decide,
    (C9_warmup_gate 2 witnessInitData witnessPools).1 1 (by decide),
    (C9_warmup_gate 2 witnessInitData witnessPools).2.1 1 (by decide)⟩
